import Mathlib

/-!
Verification development for the `tesseract-wasm` client surface: a
high-level asynchronous OCR client, a low-level synchronous engine
wrapper, and shared result types.  The repository ships only the type
declarations of this surface (`ocr-engine.d.ts`, `ocr-client.d.ts`);
the behaviour of the engine, the worker boundary and the client façade
is therefore modelled from the specification, with the native
recognition library (the out-of-scope OCR/layout implementation)
abstracted as an oracle structure.
-/

namespace TesseractWasm

/-- Rectangle type from `ocr-engine.d.ts`: four integer edges
(left, top, right, bottom), axis-aligned, pixel-space, origin top-left. -/
structure IntRect where
  left : Int
  top : Int
  right : Int
  bottom : Int
deriving DecidableEq, Repr

/-- Spec invariant on an `IntRect`: left ≤ right and top ≤ bottom. -/
def IntRect.valid (r : IntRect) : Prop :=
  r.left ≤ r.right ∧ r.top ≤ r.bottom

instance (r : IntRect) : Decidable r.valid := by
  unfold IntRect.valid; infer_instance

/-- Item of text found in a document image by layout analysis
(`BoxItem` in `ocr-engine.d.ts`): a rect plus a bitmask of layout flags. -/
structure BoxItem where
  rect : IntRect
  flags : Nat
deriving DecidableEq, Repr

/-- Item of text found by layout analysis and OCR (`TextItem` in
`ocr-engine.d.ts`): a box plus a confidence in [0, 1] and the text. -/
structure TextItem where
  rect : IntRect
  flags : Nat
  confidence : Rat
  text : String
deriving DecidableEq, Repr

/-- Forget the recognition-specific fields of a `TextItem`. -/
def TextItem.toBox (t : TextItem) : BoxItem :=
  { rect := t.rect, flags := t.flags }

/-- Result of orientation detection (`Orientation` in `ocr-engine.d.ts`). -/
structure Orientation where
  rotation : Rat
  confidence : Rat
deriving DecidableEq, Repr

/-- Granularity of layout analysis: `TextUnit = "line" | "word"`. -/
inductive TextUnit
  | line
  | word
deriving DecidableEq, Repr

/-- Modelled from the spec: the error taxonomy of §7 (the declaration
files do not declare error classes).  `ModelNotLoaded` and
`ImageNotLoaded` are the subtypes of the precondition errors. -/
inductive OCRError
  | ConfigurationError
  | ModelLoadError
  | ImageLoadError
  | ModelNotLoaded
  | ImageNotLoaded
  | TransportError
  | Destroyed
deriving DecidableEq, Repr

/-- Opaque trained-model payload (`Uint8Array | ArrayBuffer`). -/
structure Model where
  bytes : List Nat
deriving DecidableEq, Repr

/-- Opaque decoded pixel buffer (`ImageBitmap | ImageData`). -/
structure Image where
  width : Nat
  height : Nat
  pixels : List Nat
deriving DecidableEq, Repr

/-- Reading order on boxes: strictly lower on the page first, and
left-to-right among boxes at the same height. -/
def boxBefore (a b : BoxItem) : Prop :=
  a.rect.top < b.rect.top ∨ (a.rect.top = b.rect.top ∧ a.rect.left ≤ b.rect.left)

instance (a b : BoxItem) : Decidable (boxBefore a b) := by
  unfold boxBefore; infer_instance

/-- Modelled from the spec: the native recognition library (§6), the
excluded collaborator implementing layout analysis, recognition,
progress emission and orientation detection.  The engine only invokes
it; its outputs are abstract here. -/
structure NativeLib where
  validModel : Model → Bool
  validImage : Image → Bool
  analyzeLayout : Image → TextUnit → List BoxItem
  recognize : Model → Image → TextUnit → List TextItem
  recognizeText : Model → Image → String
  recognizeHOCR : Model → Image → String
  progressSeq : Model → Image → List Rat
  detectOrientation : Image → Orientation

/-- Well-formedness of the native library, from the spec's guarantees:
layout and recognition boxes have valid rects and come in reading
order, confidences lie in [0, 1], and progress values are emitted in
monotonically non-decreasing order. -/
structure NativeLibWF (lib : NativeLib) : Prop where
  layout_valid : ∀ img u, ∀ b ∈ lib.analyzeLayout img u, b.rect.valid
  layout_sorted : ∀ img u, List.Chain' boxBefore (lib.analyzeLayout img u)
  recog_valid : ∀ m img u, ∀ t ∈ lib.recognize m img u, t.rect.valid
  recog_conf : ∀ m img u, ∀ t ∈ lib.recognize m img u,
    0 ≤ t.confidence ∧ t.confidence ≤ 1
  recog_sorted : ∀ m img u,
    List.Chain' boxBefore ((lib.recognize m img u).map TextItem.toBox)
  progress_mono : ∀ m img, List.Chain' (· ≤ ·) (lib.progressSeq m img)

/-- Modelled from the spec: the state of an `OCREngine` instance
(§3/§4.1; the implementation behind `ocr-engine.d.ts` is absent).
State is {no-model, model-loaded} × {no-image, image-loaded} plus the
configuration variables and the recognition cache flag. -/
structure OCREngine where
  lib : NativeLib
  vars : List (String × String)
  modelLoaded : Option Model
  imageLoaded : Option Image
  recognitionDone : Bool

/-- Modelled from the spec: the `OCREngine` constructor yields a fresh
engine with no model, no image and nothing cached. -/
def OCREngine.construct (lib : NativeLib) : OCREngine :=
  { lib := lib, vars := [], modelLoaded := none, imageLoaded := none,
    recognitionDone := false }

/-- Modelled from the spec: `getVariable` reads a named configuration
value as a pass-through; an unknown name is a configuration error. -/
def OCREngine.getVariable (e : OCREngine) (name : String) :
    Except OCRError String :=
  match e.vars.lookup name with
  | some v => .ok v
  | none => .error .ConfigurationError

/-- Modelled from the spec: `setVariable` records a named configuration
value in the underlying recognizer, a pure pass-through. -/
def OCREngine.setVariable (e : OCREngine) (name value : String) : OCREngine :=
  { e with vars := (name, value) :: e.vars }

/-- Modelled from the spec: `loadModel` replaces any existing model and
fails with `ModelLoadError` on an invalid payload; it does not touch
the image or cached results. -/
def OCREngine.loadModel (e : OCREngine) (m : Model) :
    Except OCRError OCREngine :=
  if e.lib.validModel m then .ok { e with modelLoaded := some m }
  else .error .ModelLoadError

/-- Modelled from the spec: `loadImage` replaces any existing image and
clears all cached layout/recognition state; fails with
`ImageLoadError` on an unsupported pixel format. -/
def OCREngine.loadImage (e : OCREngine) (img : Image) :
    Except OCRError OCREngine :=
  if e.lib.validImage img then
    .ok { e with imageLoaded := some img, recognitionDone := false }
  else .error .ImageLoadError

/-- Modelled from the spec: `clearImage` releases the logical image and
cached results, keeps the model loaded, and always succeeds. -/
def OCREngine.clearImage (e : OCREngine) : OCREngine :=
  { e with imageLoaded := none, recognitionDone := false }

/-- Modelled from the spec: `getBoundingBoxes` requires an image but no
model; it performs layout analysis unless full recognition has already
run, in which case it returns the recognized segmentation. -/
def OCREngine.getBoundingBoxes (e : OCREngine) (unit : TextUnit) :
    Except OCRError (List BoxItem) :=
  match e.imageLoaded with
  | none => .error .ImageNotLoaded
  | some img =>
    match e.modelLoaded with
    | some m =>
      if e.recognitionDone then
        .ok ((e.lib.recognize m img unit).map TextItem.toBox)
      else .ok (e.lib.analyzeLayout img unit)
    | none => .ok (e.lib.analyzeLayout img unit)

/-- Modelled from the spec: `getTextBoxes` requires model and image,
runs full recognition if not cached, and delivers the native progress
sequence to the listener when one is attached and work proceeds.
Returns the updated engine, the items, and the progress values
delivered to the listener. -/
def OCREngine.getTextBoxes (e : OCREngine) (unit : TextUnit)
    (withListener : Bool) :
    Except OCRError (OCREngine × List TextItem × List Rat) :=
  match e.modelLoaded with
  | none => .error .ModelNotLoaded
  | some m =>
    match e.imageLoaded with
    | none => .error .ImageNotLoaded
    | some img =>
      .ok ({ e with recognitionDone := true },
        e.lib.recognize m img unit,
        if withListener && !e.recognitionDone then e.lib.progressSeq m img
        else [])

/-- Modelled from the spec: `getText` has the same preconditions and
progress behaviour as `getTextBoxes` and returns the page text as a
single string. -/
def OCREngine.getText (e : OCREngine) (withListener : Bool) :
    Except OCRError (OCREngine × String × List Rat) :=
  match e.modelLoaded with
  | none => .error .ModelNotLoaded
  | some m =>
    match e.imageLoaded with
    | none => .error .ImageNotLoaded
    | some img =>
      .ok ({ e with recognitionDone := true },
        e.lib.recognizeText m img,
        if withListener && !e.recognitionDone then e.lib.progressSeq m img
        else [])

/-- Modelled from the spec: `getHOCR` has the same preconditions and
progress behaviour as `getTextBoxes` and returns hOCR markup. -/
def OCREngine.getHOCR (e : OCREngine) (withListener : Bool) :
    Except OCRError (OCREngine × String × List Rat) :=
  match e.modelLoaded with
  | none => .error .ModelNotLoaded
  | some m =>
    match e.imageLoaded with
    | none => .error .ImageNotLoaded
    | some img =>
      .ok ({ e with recognitionDone := true },
        e.lib.recognizeHOCR m img,
        if withListener && !e.recognitionDone then e.lib.progressSeq m img
        else [])

/-- Modelled from the spec: `getOrientation` requires only an image and
returns the native library's best-effort rotation estimate. -/
def OCREngine.getOrientation (e : OCREngine) :
    Except OCRError Orientation :=
  match e.imageLoaded with
  | none => .error .ImageNotLoaded
  | some img => .ok (e.lib.detectOrientation img)

/-- Observable events of one asynchronous call, in delivery order:
progress notifications followed by the resolution of the result. -/
inductive CallEvent (α : Type)
  | progress (value : Rat)
  | resolve (result : α)
deriving DecidableEq, Repr

/-- Progress values carried by a list of call events, in order. -/
def progressValues {α : Type} : List (CallEvent α) → List Rat
  | [] => []
  | CallEvent.progress v :: rest => v :: progressValues rest
  | CallEvent.resolve _ :: rest => progressValues rest

/-- The trace of a recognition call: every delivered progress value, in
order, followed by the resolution of the result. -/
def callTrace {α : Type}
    (r : Except OCRError (OCREngine × α × List Rat)) :
    Except OCRError (List (CallEvent α)) :=
  r.map fun x => x.2.2.map CallEvent.progress ++ [CallEvent.resolve x.2.1]

/-- A trace resolves last: its final event is a resolution and every
earlier event is a progress notification. -/
def resolvesLast {α : Type} (tr : List (CallEvent α)) : Prop :=
  (∃ r, tr.getLast? = some (CallEvent.resolve r)) ∧
  ∀ ev ∈ tr.dropLast, ∃ v, ev = CallEvent.progress v

/-- Modelled from the spec: the client-side state of an `OCRClient`
(§3/§4.3; the implementation behind `ocr-client.d.ts` is absent):
the pending-call correlation identifiers, the progress listener
registrations (call id paired with a listener handle), and whether the
client has been torn down. -/
structure OCRClient where
  pending : List Nat
  progressListeners : List (Nat × Nat)
  destroyed : Bool
deriving DecidableEq, Repr

/-- Modelled from the spec: `OCRClient.destroy` tears down the worker
boundary and fails every still-pending continuation with a `Destroyed`
error.  Returns the torn-down client and the rejection delivered to
each pending call. -/
def OCRClient.destroy (c : OCRClient) : OCRClient × List (Nat × OCRError) :=
  ({ pending := [], progressListeners := [], destroyed := true },
    c.pending.map fun i => (i, OCRError.Destroyed))

/-- Modelled from the spec: dispatch of one boundary progress message
to the client's listeners.  Every listener currently registered for the
message's call id receives the value; a destroyed client delivers
nothing.  Returns the (listener handle, value) deliveries. -/
def OCRClient.dispatchProgress (c : OCRClient) (id : Nat) (v : Rat) :
    List (Nat × Rat) :=
  if c.destroyed then []
  else (c.progressListeners.filter fun p => p.1 == id).map fun p => (p.2, v)

/-- Asynchronous result: a value produced later.  Stands for the host
platform's promise type in the declaration files. -/
structure Promise (α : Type) where
  resolvesTo : α
deriving DecidableEq, Repr

/-- Options accepted by `createOCREngine` (`CreateOCREngineOptions` in
`ocr-engine.d.ts`): an optional WebAssembly binary and an optional
progress channel. -/
structure CreateOCREngineOptions where
  wasmBinary : Option (List Nat) := none
  progressChannel : Bool := false

/-- Modelled from the spec: `createOCREngine` initializes the OCR
library asynchronously and resolves to a fresh, ready engine built by
the `OCREngine` constructor.  Loading of the WebAssembly module is the
out-of-scope part, abstracted as `loadLib`. -/
def createOCREngine (loadLib : CreateOCREngineOptions → NativeLib)
    (opts : CreateOCREngineOptions) : Promise OCREngine :=
  ⟨OCREngine.construct (loadLib opts)⟩

/-- Modelled from the spec: the client façade forwards `getTextBoxes`
across the worker boundary to the engine and exposes the result
asynchronously. -/
def OCRClient.callGetTextBoxes (e : OCREngine) (unit : TextUnit)
    (withListener : Bool) :
    Promise (Except OCRError (OCREngine × List TextItem × List Rat)) :=
  ⟨e.getTextBoxes unit withListener⟩

/-- Modelled from the spec: the client façade forwards `getText` across
the worker boundary to the engine and exposes the result
asynchronously. -/
def OCRClient.callGetText (e : OCREngine) (withListener : Bool) :
    Promise (Except OCRError (OCREngine × String × List Rat)) :=
  ⟨e.getText withListener⟩

/-- Modelled from the spec: the client façade forwards `getHOCR` across
the worker boundary to the engine and exposes the result
asynchronously. -/
def OCRClient.callGetHOCR (e : OCREngine) (withListener : Bool) :
    Promise (Except OCRError (OCREngine × String × List Rat)) :=
  ⟨e.getHOCR withListener⟩

/-- Drop the progress component of a recognition result, keeping the
updated engine and the caller-visible result. -/
def callResult {α : Type}
    (r : Except OCRError (OCREngine × α × List Rat)) :
    Except OCRError (OCREngine × α) :=
  r.map fun x => (x.1, x.2.1)

/-- Concrete native library used to witness the theorems: one word box
per page, a fixed recognized word, and a three-step progress ramp. -/
def egLib : NativeLib :=
  { validModel := fun _ => true
    validImage := fun _ => true
    analyzeLayout := fun _ _ => [⟨⟨0, 0, 5, 5⟩, 1⟩]
    recognize := fun _ _ _ => [⟨⟨0, 0, 6, 5⟩, 1, 1 / 2, "hi"⟩]
    recognizeText := fun _ _ => "hi"
    recognizeHOCR := fun _ _ => "<p>hi</p>"
    progressSeq := fun _ _ => [0, 1 / 2, 1]
    detectOrientation := fun _ => ⟨0, 1⟩ }

theorem egLib_wf : NativeLibWF egLib := by
  constructor <;> intros <;> simp_all [egLib] <;>
    first
      | decide
      | norm_num

/-- Concrete engine with an image loaded but no model. -/
def egImageOnly : OCREngine :=
  { lib := egLib, vars := [], modelLoaded := none,
    imageLoaded := some ⟨1, 1, [0]⟩, recognitionDone := false }

/-- Concrete engine with a model and an image loaded, nothing cached. -/
def egReady : OCREngine :=
  { lib := egLib, vars := [], modelLoaded := some ⟨[0]⟩,
    imageLoaded := some ⟨1, 1, [0]⟩, recognitionDone := false }

/-- Concrete engine obtained from `egReady` after recognition has run. -/
def egDone : OCREngine :=
  { egReady with recognitionDone := true }

/-- Concrete client with three pending calls and one progress listener. -/
def egClient : OCRClient :=
  { pending := [1, 2, 3], progressListeners := [(1, 7)], destroyed := false }

/-- C1: in every engine state with an image loaded and no model ever
loaded, `getBoundingBoxes` succeeds (layout analysis requires no
model), while `getTextBoxes` fails with `ModelNotLoaded`. -/
theorem claim1_layout_needs_no_model (e : OCREngine) (img : Image)
    (hm : e.modelLoaded = none) (hi : e.imageLoaded = some img) :
    (∀ u, e.getBoundingBoxes u = .ok (e.lib.analyzeLayout img u)) ∧
    (∀ u wl, e.getTextBoxes u wl = .error .ModelNotLoaded) := by
  constructor <;> intros <;>
    simp [OCREngine.getBoundingBoxes, OCREngine.getTextBoxes, hm, hi]

theorem claim1_layout_needs_no_model_witness :
    egImageOnly.getBoundingBoxes TextUnit.word =
      .ok (egLib.analyzeLayout ⟨1, 1, [0]⟩ TextUnit.word) ∧
    egImageOnly.getTextBoxes TextUnit.word true = .error .ModelNotLoaded := by
  have h := claim1_layout_needs_no_model egImageOnly ⟨1, 1, [0]⟩ rfl rfl
  exact ⟨h.1 TextUnit.word, h.2 TextUnit.word true⟩

/-- C2: after `clearImage` (and in any state with no image loaded),
`getBoundingBoxes` fails with the `ImageNotLoaded` error kind. -/
theorem claim2_no_image_boxes_fail (e : OCREngine) (u : TextUnit) :
    e.clearImage.getBoundingBoxes u = .error .ImageNotLoaded ∧
    (e.imageLoaded = none → e.getBoundingBoxes u = .error .ImageNotLoaded) := by
  constructor
  · simp [OCREngine.clearImage, OCREngine.getBoundingBoxes]
  · intro h
    simp [OCREngine.getBoundingBoxes, h]

theorem claim2_no_image_boxes_fail_witness :
    egReady.clearImage.getBoundingBoxes TextUnit.word =
      .error .ImageNotLoaded ∧
    (OCREngine.construct egLib).getBoundingBoxes TextUnit.word =
      .error .ImageNotLoaded :=
  ⟨(claim2_no_image_boxes_fail egReady TextUnit.word).1,
    (claim2_no_image_boxes_fail (OCREngine.construct egLib)
      TextUnit.word).2 rfl⟩

/-- C3: destroying the client rejects every pending continuation with
the `Destroyed` error kind (one rejection per pending call, none left
unresolved), and after `destroy` no progress event is delivered to any
listener. -/
theorem claim3_destroy_rejects_all_pending (c : OCRClient) :
    c.destroy.2.length = c.pending.length ∧
    (∀ p ∈ c.destroy.2, p.2 = OCRError.Destroyed) ∧
    c.destroy.2.map Prod.fst = c.pending ∧
    c.destroy.1.pending = [] ∧
    (∀ id v, c.destroy.1.dispatchProgress id v = []) := by
  refine ⟨by simp [OCRClient.destroy], ?_,
    by simp [OCRClient.destroy, Function.comp_def], rfl, ?_⟩
  · intro p hp
    simp [OCRClient.destroy] at hp
    obtain ⟨i, -, rfl⟩ := hp
    rfl
  · intro id v
    simp [OCRClient.destroy, OCRClient.dispatchProgress]

theorem claim3_destroy_rejects_all_pending_witness :
    egClient.destroy.2.length = egClient.pending.length ∧
    egClient.destroy.1.dispatchProgress 1 1 = [] :=
  ⟨(claim3_destroy_rejects_all_pending egClient).1,
    (claim3_destroy_rejects_all_pending egClient).2.2.2.2 1 1⟩

/-- C8: `clearImage` modifies only the image and cached-results part of
the engine state: the library, the loaded model and the configuration
variables are untouched, so `getVariable` and `setVariable` behave
exactly as before; it always succeeds (it is a total operation) and is
a no-op when no image is loaded. -/
theorem claim8_clearImage_frame (e : OCREngine) :
    e.clearImage.lib = e.lib ∧
    e.clearImage.modelLoaded = e.modelLoaded ∧
    e.clearImage.vars = e.vars ∧
    (∀ n, e.clearImage.getVariable n = e.getVariable n) ∧
    (∀ n v, (e.clearImage.setVariable n v).vars = (e.setVariable n v).vars) ∧
    e.clearImage.imageLoaded = none ∧
    e.clearImage.recognitionDone = false ∧
    (e.imageLoaded = none → e.recognitionDone = false → e.clearImage = e) := by
  refine ⟨rfl, rfl, rfl, fun _ => rfl, fun _ _ => rfl, rfl, rfl, ?_⟩
  intro h1 h2
  cases e
  simp_all [OCREngine.clearImage]

theorem claim8_clearImage_frame_witness :
    (OCREngine.construct egLib).clearImage = OCREngine.construct egLib ∧
    egReady.clearImage.modelLoaded = egReady.modelLoaded :=
  ⟨(claim8_clearImage_frame (OCREngine.construct egLib)).2.2.2.2.2.2.2
      rfl rfl,
    (claim8_clearImage_frame egReady).2.1⟩

/-- C9: the progress listener is optional for `getTextBoxes`, `getText`
and `getHOCR`, on the engine and on the client façade: with no listener
attached the operation returns the same engine state and the same
result as with one. -/
theorem claim9_onProgress_optional (e : OCREngine) (u : TextUnit) :
    callResult (e.getTextBoxes u false) = callResult (e.getTextBoxes u true) ∧
    callResult (e.getText false) = callResult (e.getText true) ∧
    callResult (e.getHOCR false) = callResult (e.getHOCR true) ∧
    callResult (OCRClient.callGetTextBoxes e u false).resolvesTo =
      callResult (OCRClient.callGetTextBoxes e u true).resolvesTo ∧
    callResult (OCRClient.callGetText e false).resolvesTo =
      callResult (OCRClient.callGetText e true).resolvesTo ∧
    callResult (OCRClient.callGetHOCR e false).resolvesTo =
      callResult (OCRClient.callGetHOCR e true).resolvesTo := by
  cases hm : e.modelLoaded <;> cases hi : e.imageLoaded <;>
    simp [OCREngine.getTextBoxes, OCREngine.getText, OCREngine.getHOCR,
      OCRClient.callGetTextBoxes, OCRClient.callGetText,
      OCRClient.callGetHOCR, callResult, Except.map, hm, hi]

/-- C10: engine construction goes through the asynchronous factory:
`createOCREngine` returns a `Promise` that resolves to the engine built
by the `OCREngine` constructor, ready for use, with no model and no
image loaded and nothing cached. -/
theorem claim10_factory_async_construction
    (loadLib : CreateOCREngineOptions → NativeLib)
    (opts : CreateOCREngineOptions) :
    (createOCREngine loadLib opts).resolvesTo =
      OCREngine.construct (loadLib opts) ∧
    (createOCREngine loadLib opts).resolvesTo.modelLoaded = none ∧
    (createOCREngine loadLib opts).resolvesTo.imageLoaded = none ∧
    (createOCREngine loadLib opts).resolvesTo.recognitionDone = false :=
  ⟨rfl, rfl, rfl, rfl⟩

/-- C5: with a model and an image loaded, calling `getText` twice in
succession without any intervening `loadModel` or `loadImage` returns
the identical string both times. -/
theorem claim5_getText_idempotent (e : OCREngine) (wl1 wl2 : Bool)
    (e1 e2 : OCREngine) (s1 s2 : String) (ps1 ps2 : List Rat)
    (h1 : e.getText wl1 = .ok (e1, s1, ps1))
    (h2 : e1.getText wl2 = .ok (e2, s2, ps2)) :
    s2 = s1 := by
  cases hm : e.modelLoaded with
  | none => simp [OCREngine.getText, hm] at h1
  | some m =>
    cases hi : e.imageLoaded with
    | none => simp [OCREngine.getText, hm, hi] at h1
    | some img =>
      simp [OCREngine.getText, hm, hi] at h1
      obtain ⟨he1, hs1, -⟩ := h1
      subst he1
      simp [OCREngine.getText, hm, hi] at h2
      obtain ⟨-, hs2, -⟩ := h2
      exact hs2.symm.trans hs1

theorem claim5_getText_idempotent_witness :
    egReady.getText true = .ok (egDone, "hi", [0, 1 / 2, 1]) ∧
    egDone.getText true = .ok (egDone, "hi", []) ∧
    ("hi" : String) = "hi" :=
  ⟨rfl, rfl,
    claim5_getText_idempotent egReady true true egDone egDone "hi" "hi"
      [0, 1 / 2, 1] [] rfl rfl⟩

/-- C6: for every engine whose native library meets its published
guarantees, a successful `getBoundingBoxes("word")` returns boxes whose
rects satisfy left ≤ right and top ≤ bottom, sorted in reading order. -/
theorem claim6_boxes_valid_and_sorted (e : OCREngine)
    (hwf : NativeLibWF e.lib) (boxes : List BoxItem)
    (h : e.getBoundingBoxes TextUnit.word = .ok boxes) :
    (∀ b ∈ boxes, b.rect.valid) ∧ List.Chain' boxBefore boxes := by
  cases hi : e.imageLoaded with
  | none => simp [OCREngine.getBoundingBoxes, hi] at h
  | some img =>
    cases hm : e.modelLoaded with
    | none =>
      simp [OCREngine.getBoundingBoxes, hi, hm] at h
      subst h
      exact ⟨hwf.layout_valid img TextUnit.word,
        hwf.layout_sorted img TextUnit.word⟩
    | some m =>
      by_cases hr : e.recognitionDone
      · simp [OCREngine.getBoundingBoxes, hi, hm, hr] at h
        subst h
        refine ⟨?_, hwf.recog_sorted m img TextUnit.word⟩
        intro b hb
        simp at hb
        obtain ⟨t, ht, rfl⟩ := hb
        exact hwf.recog_valid m img TextUnit.word t ht
      · simp [OCREngine.getBoundingBoxes, hi, hm, hr] at h
        subst h
        exact ⟨hwf.layout_valid img TextUnit.word,
          hwf.layout_sorted img TextUnit.word⟩

theorem claim6_boxes_valid_and_sorted_witness :
    (∀ b ∈ [(⟨⟨0, 0, 5, 5⟩, 1⟩ : BoxItem)], b.rect.valid) ∧
    List.Chain' boxBefore [(⟨⟨0, 0, 5, 5⟩, 1⟩ : BoxItem)] :=
  claim6_boxes_valid_and_sorted egImageOnly egLib_wf
    [⟨⟨0, 0, 5, 5⟩, 1⟩] rfl

/-- C7: once full recognition has run (via `getTextBoxes`, `getText` or
`getHOCR`), a subsequent `getBoundingBoxes` call for the same unit on
the same image returns the recognized segmentation: for `getTextBoxes`
it returns exactly the boxes of the returned items, and for `getText`
and `getHOCR` the boxes of the library's recognition result. -/
theorem claim7_boxes_agree_after_recognition (e : OCREngine)
    (u : TextUnit) (wl : Bool) :
    (∀ e1 items ps, e.getTextBoxes u wl = .ok (e1, items, ps) →
      e1.getBoundingBoxes u = .ok (items.map TextItem.toBox)) ∧
    (∀ e1 s ps m img, e.modelLoaded = some m → e.imageLoaded = some img →
      e.getText wl = .ok (e1, s, ps) →
      e1.getBoundingBoxes u = .ok ((e.lib.recognize m img u).map
        TextItem.toBox)) ∧
    (∀ e1 s ps m img, e.modelLoaded = some m → e.imageLoaded = some img →
      e.getHOCR wl = .ok (e1, s, ps) →
      e1.getBoundingBoxes u = .ok ((e.lib.recognize m img u).map
        TextItem.toBox)) := by
  refine ⟨?_, ?_, ?_⟩
  · intro e1 items ps h
    cases hm : e.modelLoaded with
    | none => simp [OCREngine.getTextBoxes, hm] at h
    | some m =>
      cases hi : e.imageLoaded with
      | none => simp [OCREngine.getTextBoxes, hm, hi] at h
      | some img =>
        simp [OCREngine.getTextBoxes, hm, hi] at h
        obtain ⟨he1, hitems, -⟩ := h
        subst he1
        subst hitems
        simp [OCREngine.getBoundingBoxes, hm, hi]
  · intro e1 s ps m img hm hi h
    simp [OCREngine.getText, hm, hi] at h
    obtain ⟨he1, -, -⟩ := h
    subst he1
    simp [OCREngine.getBoundingBoxes, hm, hi]
  · intro e1 s ps m img hm hi h
    simp [OCREngine.getHOCR, hm, hi] at h
    obtain ⟨he1, -, -⟩ := h
    subst he1
    simp [OCREngine.getBoundingBoxes, hm, hi]

theorem claim7_boxes_agree_after_recognition_witness :
    egDone.getBoundingBoxes TextUnit.word =
      .ok ([(⟨⟨0, 0, 6, 5⟩, 1, 1 / 2, "hi"⟩ : TextItem)].map
        TextItem.toBox) :=
  (claim7_boxes_agree_after_recognition egReady TextUnit.word true).1
    egDone [⟨⟨0, 0, 6, 5⟩, 1, 1 / 2, "hi"⟩] [0, 1 / 2, 1] rfl

/-- A call trace of the shape progress-events-then-resolution carries
exactly the given progress values and resolves last. -/
theorem traceShape {α : Type} (ps : List Rat) (r : α) :
    progressValues (ps.map CallEvent.progress ++ [CallEvent.resolve r]) =
      ps ∧
    resolvesLast (ps.map CallEvent.progress ++ [CallEvent.resolve r]) := by
  refine ⟨?_, ⟨r, by simp⟩, ?_⟩
  · induction ps with
    | nil => rfl
    | cons a t ih => simpa [progressValues] using ih
  · intro ev hev
    rw [List.dropLast_concat] at hev
    simp at hev
    obtain ⟨v, -, rfl⟩ := hev
    exact ⟨v, rfl⟩

/-- A successful recognition call, against a well-formed native
library, yields a trace whose progress values are non-decreasing and
whose resolution comes last. -/
theorem recogTraceSpec {α : Type} (e : OCREngine) (hwf : NativeLibWF e.lib)
    (res : Except OCRError (OCREngine × α × List Rat))
    (hres : ∀ x, res = .ok x → x.2.2 = [] ∨
      ∃ m img, x.2.2 = e.lib.progressSeq m img)
    (tr : List (CallEvent α)) (h : callTrace res = .ok tr) :
    List.Chain' (· ≤ ·) (progressValues tr) ∧ resolvesLast tr := by
  cases res with
  | error err => simp [callTrace, Except.map] at h
  | ok x =>
    simp [callTrace, Except.map] at h
    subst h
    obtain ⟨pv, rl⟩ := traceShape x.2.2 x.2.1
    rw [pv]
    refine ⟨?_, rl⟩
    rcases hres x rfl with hnil | ⟨m, img, hseq⟩
    · rw [hnil]
      exact List.chain'_nil
    · rw [hseq]
      exact hwf.progress_mono m img

/-- C4: for every `getText`, `getTextBoxes` or `getHOCR` call with a
progress listener, the progress values delivered to the listener are
monotonically non-decreasing, and the call resolves only after the last
progress value has been delivered (the resolution is the final event of
the call's trace). -/
theorem claim4_progress_monotone_and_resolution_last (e : OCREngine)
    (hwf : NativeLibWF e.lib) :
    (∀ tr, callTrace (e.getText true) = .ok tr →
      List.Chain' (· ≤ ·) (progressValues tr) ∧ resolvesLast tr) ∧
    (∀ u tr, callTrace (e.getTextBoxes u true) = .ok tr →
      List.Chain' (· ≤ ·) (progressValues tr) ∧ resolvesLast tr) ∧
    (∀ tr, callTrace (e.getHOCR true) = .ok tr →
      List.Chain' (· ≤ ·) (progressValues tr) ∧ resolvesLast tr) := by
  refine ⟨fun tr h => recogTraceSpec e hwf _ ?_ tr h,
    fun u tr h => recogTraceSpec e hwf _ ?_ tr h,
    fun tr h => recogTraceSpec e hwf _ ?_ tr h⟩ <;>
  · intro x hx
    cases hm : e.modelLoaded with
    | none => simp_all [OCREngine.getText, OCREngine.getTextBoxes,
        OCREngine.getHOCR]
    | some m =>
      cases hi : e.imageLoaded with
      | none => simp_all [OCREngine.getText, OCREngine.getTextBoxes,
          OCREngine.getHOCR]
      | some img =>
        simp_all [OCREngine.getText, OCREngine.getTextBoxes,
          OCREngine.getHOCR]
        by_cases hr : e.recognitionDone
        · simp_all
          subst hx
          left
          rfl
        · simp_all
          subst hx
          right
          exact ⟨m, img, rfl⟩

theorem claim4_progress_monotone_and_resolution_last_witness :
    List.Chain' (· ≤ ·) (progressValues
      [CallEvent.progress 0, CallEvent.progress (1 / 2),
        CallEvent.progress 1, CallEvent.resolve "hi"]) ∧
    resolvesLast
      [CallEvent.progress 0, CallEvent.progress (1 / 2),
        CallEvent.progress 1, CallEvent.resolve "hi"] :=
  (claim4_progress_monotone_and_resolution_last egReady egLib_wf).1
    [CallEvent.progress 0, CallEvent.progress (1 / 2),
      CallEvent.progress 1, CallEvent.resolve "hi"] rfl

end TesseractWasm
